import Mathlib

/-!
Shallow embedding of `src/model/sde/r3_diffuser.py` (class `R3Diffuser`,
a VP-SDE diffuser over batched 3D point clouds), together with proofs of
the specified properties.

Modelling conventions:
* Tensors of shape `[batch, n, dim]` are functions `Fin batch → Fin n → Fin dim → ℝ`;
  single batch elements (shape `[n, dim]`) are `Fin n → Fin dim → ℝ`.
* Gaussian draws (`np.random.normal`, `torch.normal`) are explicit standard-normal
  noise arguments `z`; `torch.normal(mean, std)` becomes `mean + std * z`.
* A method that can raise `ValueError` returns `Except String _`; the raise in
  `b_t` is the `.error` branch.  The `np.isscalar(t)` checks in `forward` and
  `reverse` always pass here because `t : ℝ` is a scalar by type.
* Floating point is modelled by exact real arithmetic.
-/

noncomputable section

namespace R3Diffuser

/-- Configuration of `R3Diffuser.__init__`: spatial dimension, variance-schedule
bounds and the coordinate scaling factor. -/
structure Cfg where
  dim : ℕ
  min_b : ℝ
  max_b : ℝ
  scaling : ℝ

/-- The default construction `R3Diffuser(dim=3, min_b=0.1, max_b=20.0, scaling=0.1)`. -/
def defaultCfg : Cfg := ⟨3, 0.1, 20.0, 0.1⟩

/-- `_scale(x) = x * scaling`, applied elementwise. -/
def scale (cfg : Cfg) (x : ℝ) : ℝ := x * cfg.scaling

/-- `_unscale(x) = x / scaling`, applied elementwise. -/
def unscale (cfg : Cfg) (x : ℝ) : ℝ := x / cfg.scaling

/-- `b_t(t)`: raises `ValueError` when `t < 0` or `t > 1`, otherwise returns
`min_b + t*(max_b - min_b)`. -/
def b_t (cfg : Cfg) (t : ℝ) : Except String ℝ :=
  if t < 0 ∨ 1 < t then Except.error "Invalid t"
  else Except.ok (cfg.min_b + t * (cfg.max_b - cfg.min_b))

/-- `diffusion_coef(t) = sqrt(b_t(t))` (propagating the domain error of `b_t`). -/
def diffusion_coef (cfg : Cfg) (t : ℝ) : Except String ℝ :=
  (b_t cfg t).map Real.sqrt

/-- `drift_coef(x, t) = -1/2 * b_t(t) * x`, elementwise over a `[n, dim]` tensor
(propagating the domain error of `b_t`). -/
def drift_coef (cfg : Cfg) {n dim : ℕ} (x : Fin n → Fin dim → ℝ) (t : ℝ) :
    Except String (Fin n → Fin dim → ℝ) :=
  (b_t cfg t).map (fun bt => fun i d => -(1/2) * bt * x i d)

/-- `marginal_b_t(t) = t*min_b + (1/2)*t^2*(max_b - min_b)`. -/
def marginal_b_t (cfg : Cfg) (t : ℝ) : ℝ :=
  t * cfg.min_b + (1/2) * t ^ 2 * (cfg.max_b - cfg.min_b)

/-- `conditional_var(t) = 1 - exp(-marginal_b_t(t))`. -/
def conditional_var (cfg : Cfg) (t : ℝ) : ℝ :=
  1 - Real.exp (-marginal_b_t cfg t)

/-- `score_scaling(t) = 1 / sqrt(conditional_var(t))`. -/
def score_scaling (cfg : Cfg) (t : ℝ) : ℝ :=
  1 / Real.sqrt (conditional_var cfg t)

/-- `score(x_t, x_0, t, scale=...)` on tensors of shape `[batch, n, dim]` with a
per-batch time vector `t`, broadcast over the two trailing dimensions by
`t[:, None, None]`:
`-(x_t - exp(-1/2 * marginal_b_t(t)) * x_0) / conditional_var(t)`. -/
def score (cfg : Cfg) {batch n dim : ℕ}
    (x_t x_0 : Fin batch → Fin n → Fin dim → ℝ) (t : Fin batch → ℝ)
    (scaleArg : Bool) : Fin batch → Fin n → Fin dim → ℝ :=
  fun b i d =>
    -((if scaleArg then scale cfg (x_t b i d) else x_t b i d) -
        Real.exp (-(1/2) * marginal_b_t cfg (t b)) *
          (if scaleArg then scale cfg (x_0 b i d) else x_0 b i d)) /
      conditional_var cfg (t b)

/-- `calc_trans_0(score_t, x_t, t)`: with `beta_t = marginal_b_t(t)` broadcast by
`beta_t[..., None, None]` and `cond_var = 1 - exp(-beta_t)`, returns
`(score_t * cond_var + x_t) / exp(-1/2 * beta_t)`. -/
def calc_trans_0 (cfg : Cfg) {batch n dim : ℕ}
    (score_t x_t : Fin batch → Fin n → Fin dim → ℝ) (t : Fin batch → ℝ) :
    Fin batch → Fin n → Fin dim → ℝ :=
  fun b i d =>
    (score_t b i d * (1 - Real.exp (-marginal_b_t cfg (t b))) + x_t b i d) /
      Real.exp (-(1/2) * marginal_b_t cfg (t b))

/-- `forward(x_t_1, t, num_t)`: scales the input, sets `b_t = marginal_b_t(t)/num_t`,
and returns `sqrt(1 - b_t) * x_t_1 + sqrt(b_t) * z` with `z` standard normal.
Note there is no range check on `t` (only the scalar check, which always passes
here) and no unscaling of the result. -/
def forward (cfg : Cfg) {n dim : ℕ} (x_t_1 : Fin n → Fin dim → ℝ) (t : ℝ)
    (num_t : ℕ) (z : Fin n → Fin dim → ℝ) : Except String (Fin n → Fin dim → ℝ) :=
  let xs : Fin n → Fin dim → ℝ := fun i d => scale cfg (x_t_1 i d)
  let b : ℝ := marginal_b_t cfg t / num_t
  Except.ok (fun i d => Real.sqrt (1 - b) * xs i d + Real.sqrt b * z i d)

/-- `forward_marginal(x_0, t)` on a `[batch, n, dim]` tensor with per-batch time
vector `t`: scales `x_0`, forms `log_mean_coeff = -0.5 * marginal_b_t(t)`
(reshaped to broadcast over trailing dims), samples
`x_t = exp(log_mean_coeff) * x_0 + sqrt(1 - exp(2*log_mean_coeff)) * z`,
computes `score_t = score(x_t, x_0, t)` on the still-scaled tensors, and
returns `(unscale(x_t), score_t)`. -/
def forward_marginal (cfg : Cfg) {batch n dim : ℕ}
    (x_0 : Fin batch → Fin n → Fin dim → ℝ) (t : Fin batch → ℝ)
    (z : Fin batch → Fin n → Fin dim → ℝ) :
    (Fin batch → Fin n → Fin dim → ℝ) × (Fin batch → Fin n → Fin dim → ℝ) :=
  let x0 : Fin batch → Fin n → Fin dim → ℝ := fun b i d => scale cfg (x_0 b i d)
  let log_mean_coeff : Fin batch → ℝ := fun b => -0.5 * marginal_b_t cfg (t b)
  let mean : Fin batch → Fin n → Fin dim → ℝ :=
    fun b i d => Real.exp (log_mean_coeff b) * x0 b i d
  let std : Fin batch → ℝ := fun b => Real.sqrt (1 - Real.exp (2 * log_mean_coeff b))
  let x_t : Fin batch → Fin n → Fin dim → ℝ := fun b i d => mean b i d + std b * z b i d
  let score_t := score cfg x_t x0 t false
  (fun b i d => unscale cfg (x_t b i d), score_t)

/-- `reverse(x_t=..., score_t=..., t=..., dt=..., mask=..., center=..., noise_scale=...)`
on a single batch element of shape `[n, dim]`: scales `x_t`, takes
`g_t = diffusion_coef(t)` and `f_t = drift_coef(x_t, t)` (each raising on
`t ∉ [0,1]`), draws `z = noise_scale * normal`, forms
`perturb = (f_t - g_t^2 * score_t) * dt + g_t * sqrt(dt) * z`, multiplies
`perturb` by the mask when one is given (otherwise the mask becomes all ones),
sets `x_t_1 = x_t - perturb`, optionally recenters by the masked centroid
`sum(x_t_1, axis=-2) / sum(mask, axis=-1)`, and returns `unscale(x_t_1)`. -/
def reverse (cfg : Cfg) {n dim : ℕ} (x_t score_t : Fin n → Fin dim → ℝ)
    (t dt : ℝ) (mask : Option (Fin n → ℝ)) (center : Bool) (noise_scale : ℝ)
    (z : Fin n → Fin dim → ℝ) : Except String (Fin n → Fin dim → ℝ) := do
  let xs : Fin n → Fin dim → ℝ := fun i d => scale cfg (x_t i d)
  let g_t ← diffusion_coef cfg t
  let f_t ← drift_coef cfg xs t
  let zs : Fin n → Fin dim → ℝ := fun i d => noise_scale * z i d
  let perturb0 : Fin n → Fin dim → ℝ := fun i d =>
    (f_t i d - g_t ^ 2 * score_t i d) * dt + g_t * Real.sqrt dt * zs i d
  let maskv : Fin n → ℝ := mask.getD (fun _ => 1)
  let perturb : Fin n → Fin dim → ℝ :=
    match mask with
    | some m => fun i d => perturb0 i d * m i
    | none => perturb0
  let x1 : Fin n → Fin dim → ℝ := fun i d => xs i d - perturb i d
  let x2 : Fin n → Fin dim → ℝ :=
    if center then fun i d => x1 i d - (∑ j, x1 j d) / (∑ j, maskv j)
    else x1
  return fun i d => unscale cfg (x2 i d)

/-- `distribution(x_t, score_t, t, mask, dt)`: scaled `mu = x_t - (f_t - g_t^2*score_t)*dt`
(multiplied by the mask when given) and `std = g_t * sqrt(dt)`. -/
def distribution (cfg : Cfg) {n dim : ℕ} (x_t score_t : Fin n → Fin dim → ℝ)
    (t : ℝ) (mask : Option (Fin n → ℝ)) (dt : ℝ) :
    Except String ((Fin n → Fin dim → ℝ) × ℝ) := do
  let xs : Fin n → Fin dim → ℝ := fun i d => scale cfg (x_t i d)
  let g_t ← diffusion_coef cfg t
  let f_t ← drift_coef cfg xs t
  let std := g_t * Real.sqrt dt
  let mu : Fin n → Fin dim → ℝ := fun i d => xs i d - (f_t i d - g_t ^ 2 * score_t i d) * dt
  let mu : Fin n → Fin dim → ℝ :=
    match mask with
    | some m => fun i d => mu i d * m i
    | none => mu
  return (mu, std)

/-- The perturbation `perturb = (f_t - g_t^2 * score_t) * dt + g_t * sqrt(dt) * z`
of `reverse` (line 144), before the mask is applied, with `b_t(t)` already
evaluated to its value for a valid `t`. -/
def perturbVal (cfg : Cfg) {n dim : ℕ} (x_t score_t : Fin n → Fin dim → ℝ)
    (t dt noise_scale : ℝ) (z : Fin n → Fin dim → ℝ) : Fin n → Fin dim → ℝ :=
  fun i d =>
    (-(1/2) * (cfg.min_b + t * (cfg.max_b - cfg.min_b)) * scale cfg (x_t i d) -
        Real.sqrt (cfg.min_b + t * (cfg.max_b - cfg.min_b)) ^ 2 * score_t i d) * dt +
      Real.sqrt (cfg.min_b + t * (cfg.max_b - cfg.min_b)) * Real.sqrt dt *
        (noise_scale * z i d)

/-- The value `x_t_1 = x_t - perturb` of `reverse` (lines 146-150) before the
optional recentering, with the mask multiplied into the perturbation when one
is given, for a valid `t`. -/
def xt1Val (cfg : Cfg) {n dim : ℕ} (x_t score_t : Fin n → Fin dim → ℝ)
    (t dt : ℝ) (mask : Option (Fin n → ℝ)) (noise_scale : ℝ)
    (z : Fin n → Fin dim → ℝ) : Fin n → Fin dim → ℝ :=
  fun i d =>
    scale cfg (x_t i d) -
      (match mask with
        | some m => perturbVal cfg x_t score_t t dt noise_scale z i d * m i
        | none => perturbVal cfg x_t score_t t dt noise_scale z i d)

theorem b_t_eq_ok (cfg : Cfg) {t : ℝ} (h0 : 0 ≤ t) (h1 : t ≤ 1) :
    b_t cfg t = Except.ok (cfg.min_b + t * (cfg.max_b - cfg.min_b)) := by
  have h : ¬(t < 0 ∨ 1 < t) := by push_neg; exact ⟨h0, h1⟩
  unfold b_t
  rw [if_neg h]

theorem b_t_eq_error (cfg : Cfg) {t : ℝ} (h : t < 0 ∨ 1 < t) :
    b_t cfg t = Except.error "Invalid t" := by
  unfold b_t
  rw [if_pos h]

theorem diffusion_coef_eq_ok (cfg : Cfg) {t : ℝ} (h0 : 0 ≤ t) (h1 : t ≤ 1) :
    diffusion_coef cfg t =
      Except.ok (Real.sqrt (cfg.min_b + t * (cfg.max_b - cfg.min_b))) := by
  unfold diffusion_coef
  rw [b_t_eq_ok cfg h0 h1]
  rfl

theorem drift_coef_eq_ok (cfg : Cfg) {n dim : ℕ} (x : Fin n → Fin dim → ℝ)
    {t : ℝ} (h0 : 0 ≤ t) (h1 : t ≤ 1) :
    drift_coef cfg x t =
      Except.ok (fun i d =>
        -(1/2) * (cfg.min_b + t * (cfg.max_b - cfg.min_b)) * x i d) := by
  unfold drift_coef
  rw [b_t_eq_ok cfg h0 h1]
  rfl

/-- Closed form of `reverse` on a valid time `t`: the result is obtained from
`x_t_1` by subtracting the centroid term when `center` is set and nothing
otherwise, then unscaling. -/
theorem reverse_eq_of_valid (cfg : Cfg) {n dim : ℕ}
    (x_t score_t : Fin n → Fin dim → ℝ) {t : ℝ} (dt : ℝ)
    (mask : Option (Fin n → ℝ)) (center : Bool) (noise_scale : ℝ)
    (z : Fin n → Fin dim → ℝ) (h0 : 0 ≤ t) (h1 : t ≤ 1) :
    reverse cfg x_t score_t t dt mask center noise_scale z =
      Except.ok (fun i d => unscale cfg
        (xt1Val cfg x_t score_t t dt mask noise_scale z i d -
          (if center then
            (∑ j, xt1Val cfg x_t score_t t dt mask noise_scale z j d) /
              (∑ j, (mask.getD fun _ => 1) j)
           else 0))) := by
  have hg := diffusion_coef_eq_ok cfg h0 h1
  have hf := drift_coef_eq_ok cfg (fun i d => scale cfg (x_t i d)) h0 h1
  simp only [reverse, hg, hf, bind, Except.bind, pure, Except.pure]
  congr 1
  funext i d
  cases center with
  | false =>
      simp only [Bool.false_eq_true, if_false, sub_zero]
      cases mask with
      | none => simp [xt1Val, perturbVal]
      | some m => simp [xt1Val, perturbVal]
  | true =>
      simp only [if_true]
      cases mask with
      | none => simp [xt1Val, perturbVal]
      | some m => simp [xt1Val, perturbVal]

/-- Claim C1: with `scale=False`, `score(x_t, x_0, t)` is exactly
`-(x_t - exp(-0.5*marginal_b_t(t)) * x_0) / (1 - exp(-marginal_b_t(t)))`,
with `t` broadcast over the two trailing dimensions. -/
theorem claim_C1_score_formula (cfg : Cfg) {batch n dim : ℕ}
    (x_t x_0 : Fin batch → Fin n → Fin dim → ℝ) (t : Fin batch → ℝ)
    (b : Fin batch) (i : Fin n) (d : Fin dim) :
    score cfg x_t x_0 t false b i d =
      -(x_t b i d - Real.exp (-0.5 * marginal_b_t cfg (t b)) * x_0 b i d) /
        (1 - Real.exp (-marginal_b_t cfg (t b))) := by
  simp only [score, conditional_var, if_false, Bool.false_eq_true]
  norm_num

/-- Claim C7: `forward(x_t_1, t, num_t)` scales the input, sets
`b = marginal_b_t(t)/num_t`, and returns `sqrt(1-b)*scale(x_t_1) + sqrt(b)*z`
still in scaled units (no unscaling). -/
theorem claim_C7_forward_formula (cfg : Cfg) {n dim : ℕ}
    (x_t_1 : Fin n → Fin dim → ℝ) (t : ℝ) (num_t : ℕ)
    (z : Fin n → Fin dim → ℝ) :
    forward cfg x_t_1 t num_t z =
      Except.ok (fun i d =>
        Real.sqrt (1 - marginal_b_t cfg t / num_t) * scale cfg (x_t_1 i d) +
          Real.sqrt (marginal_b_t cfg t / num_t) * z i d) := rfl

/-- Claim C9: with `0 < min_b < max_b`, `marginal_b_t` is non-negative and
monotone non-decreasing on `[0, 1]`. -/
theorem claim_C9_marginal_monotone (cfg : Cfg)
    (hmin : 0 < cfg.min_b) (hmax : cfg.min_b < cfg.max_b)
    {t1 t2 : ℝ} (h0 : 0 ≤ t1) (h12 : t1 ≤ t2) (h21 : t2 ≤ 1) :
    0 ≤ marginal_b_t cfg t1 ∧ marginal_b_t cfg t1 ≤ marginal_b_t cfg t2 := by
  unfold marginal_b_t
  constructor
  · nlinarith [mul_nonneg h0 hmin.le, sq_nonneg t1]
  · nlinarith [mul_nonneg (sub_nonneg.mpr h12) hmin.le,
      mul_nonneg (mul_nonneg (sub_nonneg.mpr h12) (by linarith : (0:ℝ) ≤ t2 + t1))
        (by linarith : (0:ℝ) ≤ cfg.max_b - cfg.min_b)]

/-- Witness for C9 at the default configuration, `t1 = 0`, `t2 = 1`. -/
theorem claim_C9_witness :
    0 < defaultCfg.min_b ∧ defaultCfg.min_b < defaultCfg.max_b ∧
      (0:ℝ) ≤ 0 ∧ (0:ℝ) ≤ 1 ∧ (1:ℝ) ≤ 1 ∧
      (0 ≤ marginal_b_t defaultCfg 0 ∧
        marginal_b_t defaultCfg 0 ≤ marginal_b_t defaultCfg 1) :=
  ⟨by norm_num [defaultCfg], by norm_num [defaultCfg], le_refl 0, zero_le_one, le_refl 1,
    claim_C9_marginal_monotone defaultCfg (by norm_num [defaultCfg])
      (by norm_num [defaultCfg]) (le_refl 0) zero_le_one (le_refl 1)⟩

/-- Claim C3: `forward_marginal(x_0, t)` samples
`x_t = exp(-0.5*marginal_b_t(t)) * scale(x_0) + sqrt(1 - exp(-marginal_b_t(t))) * z`,
computes the score from the still-scaled `x_t` and `x_0`, and returns
`(unscale(x_t), score_t)` with the score left in scaled units. -/
theorem claim_C3_forward_marginal (cfg : Cfg) {batch n dim : ℕ}
    (x_0 : Fin batch → Fin n → Fin dim → ℝ) (t : Fin batch → ℝ)
    (z : Fin batch → Fin n → Fin dim → ℝ) :
    (forward_marginal cfg x_0 t z).1 =
      (fun b i d => unscale cfg
        (Real.exp (-0.5 * marginal_b_t cfg (t b)) * scale cfg (x_0 b i d) +
          Real.sqrt (1 - Real.exp (-marginal_b_t cfg (t b))) * z b i d)) ∧
    (forward_marginal cfg x_0 t z).2 =
      score cfg
        (fun b i d =>
          Real.exp (-0.5 * marginal_b_t cfg (t b)) * scale cfg (x_0 b i d) +
            Real.sqrt (1 - Real.exp (-marginal_b_t cfg (t b))) * z b i d)
        (fun b i d => scale cfg (x_0 b i d)) t false := by
  have h2 : ∀ x : ℝ, (2:ℝ) * (-0.5 * x) = -x := fun x => by ring
  have hx : (fun b i d =>
        Real.exp (-0.5 * marginal_b_t cfg (t b)) * scale cfg (x_0 b i d) +
          Real.sqrt (1 - Real.exp (2 * (-0.5 * marginal_b_t cfg (t b)))) * z b i d :
        Fin batch → Fin n → Fin dim → ℝ) =
      fun b i d =>
        Real.exp (-0.5 * marginal_b_t cfg (t b)) * scale cfg (x_0 b i d) +
          Real.sqrt (1 - Real.exp (-marginal_b_t cfg (t b))) * z b i d := by
    funext b i d
    rw [h2]
  constructor
  · funext b i d
    simp only [forward_marginal]
    rw [h2]
  · simp only [forward_marginal]
    rw [hx]

/-- Claim C2: for a valid scalar `t` and `center=False`, `reverse` computes on
scaled coordinates `g = sqrt(b_t(t))`, `f = -0.5*b_t(t)*scale(x_t)`,
`perturb = (f - g^2*score_t)*dt + g*sqrt(dt)*(noise_scale*z)`, zeroes `perturb`
at points whose (0/1-valued) mask entry is 0 — all points active when the mask
is absent — sets `x_t_1 = scale(x_t) - perturb`, and returns it unscaled. -/
theorem claim_C2_reverse_update (cfg : Cfg) {n dim : ℕ}
    (x_t score_t : Fin n → Fin dim → ℝ) {t : ℝ} (dt noise_scale : ℝ)
    (m : Fin n → ℝ) (z : Fin n → Fin dim → ℝ)
    (h0 : 0 ≤ t) (h1 : t ≤ 1) (hm : ∀ i, m i = 0 ∨ m i = 1) :
    reverse cfg x_t score_t t dt (some m) false noise_scale z =
      Except.ok (fun i d => unscale cfg (scale cfg (x_t i d) -
        (if m i = 0 then 0 else
          (-0.5 * (cfg.min_b + t * (cfg.max_b - cfg.min_b)) * scale cfg (x_t i d) -
              Real.sqrt (cfg.min_b + t * (cfg.max_b - cfg.min_b)) ^ 2 *
                score_t i d) * dt +
            Real.sqrt (cfg.min_b + t * (cfg.max_b - cfg.min_b)) * Real.sqrt dt *
              (noise_scale * z i d)))) ∧
    reverse cfg x_t score_t t dt none false noise_scale z =
      Except.ok (fun i d => unscale cfg (scale cfg (x_t i d) -
        ((-0.5 * (cfg.min_b + t * (cfg.max_b - cfg.min_b)) * scale cfg (x_t i d) -
            Real.sqrt (cfg.min_b + t * (cfg.max_b - cfg.min_b)) ^ 2 *
              score_t i d) * dt +
          Real.sqrt (cfg.min_b + t * (cfg.max_b - cfg.min_b)) * Real.sqrt dt *
            (noise_scale * z i d)))) := by
  constructor
  · rw [reverse_eq_of_valid cfg x_t score_t dt (some m) false noise_scale z h0 h1]
    congr 1
    funext i d
    simp only [Bool.false_eq_true, if_false, sub_zero, xt1Val, perturbVal]
    rcases hm i with h | h
    · rw [h, if_pos rfl]
      ring_nf
    · rw [h]
      rw [if_neg one_ne_zero]
      ring_nf
  · rw [reverse_eq_of_valid cfg x_t score_t dt none false noise_scale z h0 h1]
    congr 1
    funext i d
    simp only [Bool.false_eq_true, if_false, sub_zero, xt1Val, perturbVal]
    ring_nf

/-- Witness for C2 at the default configuration, one point in one dimension,
`t = 1/2`, mask value 1. -/
theorem claim_C2_witness :
    (0:ℝ) ≤ 1/2 ∧ (1/2:ℝ) ≤ 1 ∧ (∀ i : Fin 1, ((1:ℝ) = 0 ∨ (1:ℝ) = 1)) ∧
    (reverse defaultCfg (fun (_ : Fin 1) (_ : Fin 1) => (1:ℝ)) (fun _ _ => 0)
        (1/2) (1/100) (some fun _ => 1) false 1 (fun _ _ => 0) =
      Except.ok (fun i d => unscale defaultCfg (scale defaultCfg 1 -
        (if (1:ℝ) = 0 then 0 else
          (-0.5 * (defaultCfg.min_b + 1/2 * (defaultCfg.max_b - defaultCfg.min_b)) *
              scale defaultCfg 1 -
              Real.sqrt (defaultCfg.min_b + 1/2 * (defaultCfg.max_b - defaultCfg.min_b)) ^ 2 *
                0) * (1/100) +
            Real.sqrt (defaultCfg.min_b + 1/2 * (defaultCfg.max_b - defaultCfg.min_b)) *
              Real.sqrt (1/100) * (1 * 0)))) ∧
    reverse defaultCfg (fun (_ : Fin 1) (_ : Fin 1) => (1:ℝ)) (fun _ _ => 0)
        (1/2) (1/100) none false 1 (fun _ _ => 0) =
      Except.ok (fun i d => unscale defaultCfg (scale defaultCfg 1 -
        ((-0.5 * (defaultCfg.min_b + 1/2 * (defaultCfg.max_b - defaultCfg.min_b)) *
            scale defaultCfg 1 -
            Real.sqrt (defaultCfg.min_b + 1/2 * (defaultCfg.max_b - defaultCfg.min_b)) ^ 2 *
              0) * (1/100) +
          Real.sqrt (defaultCfg.min_b + 1/2 * (defaultCfg.max_b - defaultCfg.min_b)) *
            Real.sqrt (1/100) * (1 * 0))))) :=
  ⟨by norm_num, by norm_num, fun _ => Or.inr rfl,
    @claim_C2_reverse_update defaultCfg 1 1 (fun _ _ => 1) (fun _ _ => 0) (1/2)
      (1/100) 1 (fun _ => 1) (fun _ _ => 0) (by norm_num) (by norm_num)
      (fun _ => Or.inr rfl)⟩

/-- Claim C4: with `center=True` and a mask, after the perturbation step
`reverse` subtracts the masked centroid `sum(x_t_1)/sum(mask)` (summed over
the point axis) from every point — including points whose mask entry is 0 —
before unscaling and returning. -/
theorem claim_C4_reverse_centering (cfg : Cfg) {n dim : ℕ}
    (x_t score_t : Fin n → Fin dim → ℝ) {t : ℝ} (dt noise_scale : ℝ)
    (m : Fin n → ℝ) (z : Fin n → Fin dim → ℝ) (h0 : 0 ≤ t) (h1 : t ≤ 1) :
    reverse cfg x_t score_t t dt (some m) true noise_scale z =
      Except.ok (fun i d => unscale cfg
        (xt1Val cfg x_t score_t t dt (some m) noise_scale z i d -
          (∑ j, xt1Val cfg x_t score_t t dt (some m) noise_scale z j d) /
            (∑ j, m j))) := by
  rw [reverse_eq_of_valid cfg x_t score_t dt (some m) true noise_scale z h0 h1]
  congr 1

/-- Witness for C4 at the default configuration, one point in one dimension,
`t = 1/2`, mask value 0 for the single point. -/
theorem claim_C4_witness :
    (0:ℝ) ≤ 1/2 ∧ (1/2:ℝ) ≤ 1 ∧
    reverse defaultCfg (fun (_ : Fin 1) (_ : Fin 1) => (1:ℝ)) (fun _ _ => 0)
        (1/2) (1/100) (some fun _ => 0) true 1 (fun _ _ => 0) =
      Except.ok (fun i d => unscale defaultCfg
        (xt1Val defaultCfg (fun (_ : Fin 1) (_ : Fin 1) => (1:ℝ)) (fun _ _ => 0)
            (1/2) (1/100) (some fun _ => 0) 1 (fun _ _ => 0) i d -
          (∑ j : Fin 1, xt1Val defaultCfg (fun (_ : Fin 1) (_ : Fin 1) => (1:ℝ))
              (fun _ _ => 0) (1/2) (1/100) (some fun _ => 0) 1 (fun _ _ => 0) j d) /
            (∑ j : Fin 1, (0:ℝ)))) :=
  ⟨by norm_num, by norm_num,
    @claim_C4_reverse_centering defaultCfg 1 1 (fun _ _ => 1) (fun _ _ => 0)
      (1/2) (1/100) 1 (fun _ => 0) (fun _ _ => 0) (by norm_num) (by norm_num)⟩

/-- Claim C10: with no mask (all points active), `center=True`, a valid `t` and
at least one point, every coordinate of the returned positions sums to exactly
zero over the point axis. -/
theorem claim_C10_centered_sum_zero (cfg : Cfg) {n dim : ℕ}
    (x_t score_t : Fin n → Fin dim → ℝ) {t : ℝ} (dt noise_scale : ℝ)
    (z : Fin n → Fin dim → ℝ) (h0 : 0 ≤ t) (h1 : t ≤ 1) (hn : 0 < n)
    {y : Fin n → Fin dim → ℝ}
    (hy : reverse cfg x_t score_t t dt none true noise_scale z = Except.ok y)
    (d : Fin dim) :
    ∑ i, y i d = 0 := by
  rw [reverse_eq_of_valid cfg x_t score_t dt none true noise_scale z h0 h1] at hy
  rw [← Except.ok.inj hy]
  have hn0 : ((n:ℝ)) ≠ 0 := Nat.cast_ne_zero.mpr hn.ne'
  simp only [if_true, Option.getD_none, unscale, Finset.sum_const,
    Finset.card_univ, Fintype.card_fin, nsmul_eq_mul, mul_one]
  rw [← Finset.sum_div, Finset.sum_sub_distrib, Finset.sum_const,
    Finset.card_univ, Fintype.card_fin, nsmul_eq_mul, mul_div_cancel₀ _ hn0,
    sub_self, zero_div]

/-- Witness for C10 at the default configuration, one point in one dimension,
`t = 1/2`. -/
theorem claim_C10_witness :
    (0:ℝ) ≤ 1/2 ∧ (1/2:ℝ) ≤ 1 ∧ 0 < 1 ∧
    ∀ d : Fin 1, ∑ i : Fin 1,
      (fun (i : Fin 1) (d : Fin 1) => unscale defaultCfg
        (xt1Val defaultCfg (fun (_ : Fin 1) (_ : Fin 1) => (1:ℝ)) (fun _ _ => 0)
            (1/2) (1/100) none 1 (fun _ _ => 0) i d -
          (∑ j : Fin 1, xt1Val defaultCfg (fun (_ : Fin 1) (_ : Fin 1) => (1:ℝ))
              (fun _ _ => 0) (1/2) (1/100) none 1 (fun _ _ => 0) j d) /
            (∑ j : Fin 1, (1:ℝ)))) i d = 0 :=
  ⟨by norm_num, by norm_num, Nat.one_pos, fun d =>
    @claim_C10_centered_sum_zero defaultCfg 1 1 (fun _ _ => 1) (fun _ _ => 0)
      (1/2) (1/100) 1 (fun _ _ => 0) (by norm_num) (by norm_num) Nat.one_pos _
      (@reverse_eq_of_valid defaultCfg 1 1 (fun _ _ => 1) (fun _ _ => 0) (1/2)
        (1/100) none true 1 (fun _ _ => 0) (by norm_num) (by norm_num)) d⟩

/-- `marginal_b_t` is strictly positive at positive times for a valid schedule. -/
theorem marginal_b_t_pos (cfg : Cfg) (hmin : 0 < cfg.min_b)
    (hmax : cfg.min_b < cfg.max_b) {t : ℝ} (ht : 0 < t) :
    0 < marginal_b_t cfg t := by
  unfold marginal_b_t
  nlinarith [mul_pos ht hmin,
    mul_nonneg (sq_nonneg t) (by linarith : (0:ℝ) ≤ cfg.max_b - cfg.min_b)]

/-- Claim C8: for `0 < min_b < max_b` and per-batch times in `(0,1]`,
`calc_trans_0(score(x_t, x_0, t), x_t, t)` recovers `x_0` exactly. -/
theorem claim_C8_calc_trans_0_inverts_score (cfg : Cfg) {batch n dim : ℕ}
    (x_t x_0 : Fin batch → Fin n → Fin dim → ℝ) (t : Fin batch → ℝ)
    (hmin : 0 < cfg.min_b) (hmax : cfg.min_b < cfg.max_b)
    (ht : ∀ b, 0 < t b ∧ t b ≤ 1) :
    calc_trans_0 cfg (score cfg x_t x_0 t false) x_t t = x_0 := by
  funext b i d
  have hB : 0 < marginal_b_t cfg (t b) := marginal_b_t_pos cfg hmin hmax (ht b).1
  have hv : (1 : ℝ) - Real.exp (-marginal_b_t cfg (t b)) ≠ 0 := by
    have hlt : Real.exp (-marginal_b_t cfg (t b)) < 1 :=
      Real.exp_lt_one_iff.mpr (by linarith)
    linarith
  have he : Real.exp (-(1/2) * marginal_b_t cfg (t b)) ≠ 0 := Real.exp_ne_zero _
  simp only [calc_trans_0, score, conditional_var, Bool.false_eq_true, if_false]
  field_simp

/-- Witness for C8 at the default configuration with `t = 1`, `x_t = 2`, `x_0 = 3`. -/
theorem claim_C8_witness :
    0 < defaultCfg.min_b ∧ defaultCfg.min_b < defaultCfg.max_b ∧
    (∀ b : Fin 1, 0 < (1:ℝ) ∧ (1:ℝ) ≤ 1) ∧
    calc_trans_0 defaultCfg
        (score defaultCfg (fun (_ : Fin 1) (_ : Fin 1) (_ : Fin 1) => (2:ℝ))
          (fun _ _ _ => 3) (fun _ => 1) false)
        (fun _ _ _ => 2) (fun _ => 1) = fun _ _ _ => (3:ℝ) :=
  ⟨by norm_num [defaultCfg], by norm_num [defaultCfg],
    fun _ => ⟨one_pos, le_refl 1⟩,
    @claim_C8_calc_trans_0_inverts_score defaultCfg 1 1 1 (fun _ _ _ => 2)
      (fun _ _ _ => 3) (fun _ => 1) (by norm_num [defaultCfg])
      (by norm_num [defaultCfg]) (fun _ => ⟨one_pos, le_refl 1⟩)⟩

/-- Claim C5 counterexample: `forward` performs no range check on `t`; at
`t = -0.1` it returns a value (raising no domain error). -/
theorem claim_C5_counterexample :
    forward defaultCfg (fun (_ : Fin 1) (_ : Fin 1) => (0:ℝ)) (-0.1) 1
        (fun _ _ => 0) =
      Except.ok (fun i d =>
        Real.sqrt (1 - marginal_b_t defaultCfg (-0.1) / ((1:ℕ):ℝ)) *
            scale defaultCfg 0 +
          Real.sqrt (marginal_b_t defaultCfg (-0.1) / ((1:ℕ):ℝ)) * 0) := rfl

/-- Claim C5 (amended): for `t` outside `[0,1]`, `b_t` raises the domain error
and `reverse` propagates it (through `diffusion_coef`); `forward` performs no
such check — see the counterexample. -/
theorem claim_C5_domain_error (cfg : Cfg) {n dim : ℕ}
    (x_t score_t : Fin n → Fin dim → ℝ) (dt : ℝ) (mask : Option (Fin n → ℝ))
    (center : Bool) (noise_scale : ℝ) (z : Fin n → Fin dim → ℝ)
    {t : ℝ} (h : t < 0 ∨ 1 < t) :
    b_t cfg t = Except.error "Invalid t" ∧
    reverse cfg x_t score_t t dt mask center noise_scale z =
      Except.error "Invalid t" := by
  refine ⟨b_t_eq_error cfg h, ?_⟩
  have hg : diffusion_coef cfg t = Except.error "Invalid t" := by
    unfold diffusion_coef
    rw [b_t_eq_error cfg h]
    rfl
  simp only [reverse, hg, bind, Except.bind]

/-- Witness for the amended C5 at `t = 3/2`. -/
theorem claim_C5_witness :
    ((3/2 : ℝ) < 0 ∨ (1:ℝ) < 3/2) ∧
    (b_t defaultCfg (3/2) = Except.error "Invalid t" ∧
      reverse defaultCfg (fun (_ : Fin 1) (_ : Fin 1) => (0:ℝ)) (fun _ _ => 0)
          (3/2) (1/100) none true 1 (fun _ _ => 0) =
        Except.error "Invalid t") :=
  ⟨Or.inr (by norm_num),
    @claim_C5_domain_error defaultCfg 1 1 (fun _ _ => 0) (fun _ _ => 0) (1/100)
      none true 1 (fun _ _ => 0) (3/2) (Or.inr (by norm_num))⟩

/-- Claim C6 (behavior at the failing input): with `center=True` and an
all-zero mask, `reverse` does not fail and does not skip centering; it
proceeds and computes the centroid term with the zero divisor
`sum(mask) = 0`. -/
theorem claim_C6_zero_mask_division :
    reverse defaultCfg (fun (_ : Fin 1) (_ : Fin 1) => (1:ℝ)) (fun _ _ => 0)
        (1/2) (1/100) (some fun _ => 0) true 1 (fun _ _ => 0) =
      Except.ok (fun i d => unscale defaultCfg
        (xt1Val defaultCfg (fun (_ : Fin 1) (_ : Fin 1) => (1:ℝ)) (fun _ _ => 0)
            (1/2) (1/100) (some fun _ => 0) 1 (fun _ _ => 0) i d -
          (∑ j : Fin 1, xt1Val defaultCfg (fun (_ : Fin 1) (_ : Fin 1) => (1:ℝ))
              (fun _ _ => 0) (1/2) (1/100) (some fun _ => 0) 1 (fun _ _ => 0) j d) /
            0)) := by
  rw [@reverse_eq_of_valid defaultCfg 1 1 (fun _ _ => 1) (fun _ _ => 0) (1/2)
    (1/100) (some fun _ => 0) true 1 (fun _ _ => 0) (by norm_num) (by norm_num)]
  congr 1
  funext i d
  simp

end R3Diffuser

end
